import Mathlib

/-
Shallow embedding of the spinoff actor runtime (pattern matcher, remoting Hub,
actor mailbox and lifecycle), translated from the Python sources:

  * spinoff/util/pattern_matching.py   (structural pattern matcher)
  * spinoff/actor/remoting.py          (Hub, ConnectedNode, RemoteActor, unpickler hook)
  * unnamedframework/actor/actor.py    (Actor mailbox `get`, lifecycle `stop`)

Clock readings (`reactor.seconds()`, floats in the source) are modelled as
integers: every time constant involved is a whole number of seconds and the
code only adds, subtracts and compares them, so integer instants are exact
(and exactly float-representable).  Python's
exceptions are modelled with Option/Except or explicit flags; the mutation of
objects is modelled by explicit state passing.
-/

namespace Spinoff

/-! ### Python values

Subjects handled by the pattern matcher.  Python distinguishes tuples (which
the matcher destructures) from all other values; the non-tuple values relevant
here are ints, strings and `None`.  Python 2 equality between these types:
values of different types compare unequal. -/

inductive PyScalar : Type where
  | int (n : Int)
  | str (s : String)
  | none
deriving DecidableEq, Repr

inductive PyVal : Type where
  | scalar (s : PyScalar)
  | tuple (xs : List PyVal)

mutual

def PyVal.decEq : (a b : PyVal) → Decidable (a = b)
  | .scalar a, .scalar b =>
    if h : a = b then .isTrue (by rw [h]) else .isFalse (by simp [h])
  | .scalar _, .tuple _ => .isFalse nofun
  | .tuple _, .scalar _ => .isFalse nofun
  | .tuple xs, .tuple ys =>
    match PyVal.decEqList xs ys with
    | .isTrue h => .isTrue (by rw [h])
    | .isFalse h => .isFalse (by simpa using h)

def PyVal.decEqList : (xs ys : List PyVal) → Decidable (xs = ys)
  | [], [] => .isTrue rfl
  | [], _ :: _ => .isFalse nofun
  | _ :: _, [] => .isFalse nofun
  | x :: xs, y :: ys =>
    match PyVal.decEq x y, PyVal.decEqList xs ys with
    | .isTrue h1, .isTrue h2 => .isTrue (by rw [h1, h2])
    | .isFalse h1, _ => .isFalse (by simp [h1])
    | _, .isFalse h2 => .isFalse (by simp [h2])

end

instance : DecidableEq PyVal := PyVal.decEq

/-- Python truthiness of the embedded values: `0`, `""`, `None` and `()` are
falsy, everything else truthy. -/
def PyVal.toBool : PyVal → Bool
  | .scalar (.int n) => n != 0
  | .scalar (.str s) => s ≠ ""
  | .scalar .none => false
  | .tuple xs => !xs.isEmpty

/-- `isinstance(subject, tuple)`. -/
def PyVal.isTuple : PyVal → Bool
  | .tuple _ => true
  | .scalar _ => false

/-- `subject[0]` for a non-empty tuple (only used under that guard). -/
def PyVal.tupleHead : PyVal → PyVal
  | .tuple (x :: _) => x
  | _ => .scalar .none

/-- `subject[1:]` for a non-empty tuple (only used under that guard). -/
def PyVal.tupleTail : PyVal → PyVal
  | .tuple (_ :: xs) => .tuple xs
  | _ => .scalar .none

/-! ### Patterns (spinoff/util/pattern_matching.py)

A pattern is a plain (non-tuple) literal, a tuple of sub-patterns, or one of
the `Matcher` subclasses.  The embedding covers the matchers the claims range
over: `ANY` and `NOT(p)`; the Boolean argument is the `ignore` flag set by
`IGNORE` (the `Matcher.ignore` class attribute, `False` by default). -/

inductive Pattern : Type where
  | lit (v : PyScalar)
  | tup (ps : List Pattern)
  | any (ignore : Bool)
  | nt (matcher : Pattern) (ignore : Bool)

mutual

def Pattern.decEq : (a b : Pattern) → Decidable (a = b)
  | .lit v, .lit w =>
    if h : v = w then .isTrue (by rw [h]) else .isFalse (by simp [h])
  | .any i, .any j =>
    if h : i = j then .isTrue (by rw [h]) else .isFalse (by simp [h])
  | .nt m i, .nt m' j =>
    match Pattern.decEq m m' with
    | .isTrue h1 =>
      if h2 : i = j then .isTrue (by rw [h1, h2]) else .isFalse (by simp [h2])
    | .isFalse h1 => .isFalse (by simp [h1])
  | .tup ps, .tup qs =>
    match Pattern.decEqList ps qs with
    | .isTrue h => .isTrue (by rw [h])
    | .isFalse h => .isFalse (by simpa using h)
  | .lit _, .tup _ | .lit _, .any _ | .lit _, .nt _ _ => .isFalse nofun
  | .tup _, .lit _ | .tup _, .any _ | .tup _, .nt _ _ => .isFalse nofun
  | .any _, .lit _ | .any _, .tup _ | .any _, .nt _ _ => .isFalse nofun
  | .nt _ _, .lit _ | .nt _ _, .tup _ | .nt _ _, .any _ => .isFalse nofun

def Pattern.decEqList : (xs ys : List Pattern) → Decidable (xs = ys)
  | [], [] => .isTrue rfl
  | [], _ :: _ => .isFalse nofun
  | _ :: _, [] => .isFalse nofun
  | x :: xs, y :: ys =>
    match Pattern.decEq x y, Pattern.decEqList xs ys with
    | .isTrue h1, .isTrue h2 => .isTrue (by rw [h1, h2])
    | .isFalse h1, _ => .isFalse (by simp [h1])
    | _, .isFalse h2 => .isFalse (by simp [h2])

end

instance : DecidableEq Pattern := Pattern.decEq

/-- `isinstance(x, Matcher)`: `ANY` and `NOT(...)` are `Matcher` instances,
plain literals and tuples are not. -/
def Pattern.isMatcher : Pattern → Bool
  | .any _ => true
  | .nt _ _ => true
  | .lit _ => false
  | .tup _ => false

/-- `_is_collect(pattern)` = `isinstance(pattern, Matcher) and not pattern.ignore`. -/
def is_collect : Pattern → Bool
  | .any ig => !ig
  | .nt _ ig => !ig
  | .lit _ => false
  | .tup _ => false

mutual

/-- Python's `pattern == subject` for the embedded patterns.

  * a plain literal compares by value equality;
  * a tuple compares elementwise (equal length required), where each element
    comparison is again `==` (so `Matcher.__eq__` applies to elements);
  * `_ANY.__eq__` returns `True` for any subject;
  * `NOT.__eq__(x)` returns `self.matcher != x` (see `pyNe`). -/
def patternEq : Pattern → PyVal → Bool
  | .lit v, x => PyVal.scalar v == x
  | .tup ps, .tuple xs => tupleEq ps xs
  | .tup _, _ => false
  | .any _, _ => true
  | .nt m _, x => pyNe m x

/-- Elementwise `==` of a Python tuple of patterns against a tuple of values. -/
def tupleEq : List Pattern → List PyVal → Bool
  | [], [] => true
  | p :: ps, x :: xs => patternEq p x && tupleEq ps xs
  | _, _ => false

/-- Python 2's `matcher != x`, as evaluated inside `NOT.__eq__`.

Plain values and tuples have a genuine `__ne__`, so `!=` is the negation of
`==` for them.  The `Matcher` classes define `__eq__` but no `__ne__` (the
`__req__` method on `Matcher` is not a Python protocol method), so for a
`Matcher` operand Python 2 falls back to the default comparison, which deems
two objects of different types unequal: `matcher != subject` is `True` for
every non-identical subject — the negation is lost. -/
def pyNe : Pattern → PyVal → Bool
  | .lit v, x => !(PyVal.scalar v == x)
  | .tup ps, .tuple xs => !(tupleEq ps xs)
  | .tup _, _ => true
  | .any _, _ => true
  | .nt _ _, _ => true

end

mutual

/-- `_match(pattern, subject, success)` from `match` in
spinoff/util/pattern_matching.py.

Non-tuple patterns: `values = [subject] if _is_collect(pattern) else []`,
result `(success and pattern == subject, values)`.

Tuple patterns: `subject_is_tuple = isinstance(subject, tuple)` is computed
once; then for each sub-pattern the head of the remaining subject (or `None`
when the subject is not a truthy tuple) is matched and the subject advanced
(`subject = subject[1:] if subject_is_tuple and subject else None`); finally
`if subject: success = False` fails the match when part of the subject was
left unconsumed. -/
def pmatch : Pattern → PyVal → Bool → Bool × List PyVal
  | .tup ps, subject, success =>
    let subject_is_tuple := subject.isTuple
    let (success, values, rest) := pmatchLoop ps subject subject_is_tuple success
    (if rest.toBool then false else success, values)
  | p, subject, success =>
    (success && patternEq p subject, if is_collect p then [subject] else [])

/-- The `for subpattern in pattern:` loop inside `_match`; returns the final
success flag, the accumulated captures and the leftover subject. -/
def pmatchLoop : List Pattern → PyVal → Bool → Bool → Bool × List PyVal × PyVal
  | [], subject, _, success => (success, [], subject)
  | sp :: sps, subject, istup, success =>
    let arg := if istup && subject.toBool then subject.tupleHead else .scalar .none
    let (success, subvalues) := pmatch sp arg success
    let subject' := if istup && subject.toBool then subject.tupleTail else .scalar .none
    let (success, values, rest) := pmatchLoop sps subject' istup success
    (success, subvalues ++ values, rest)

end

/-- The result value of `match(pattern, subject, flatten)`:
with `flatten=False` a pair `(success, tuple(values))`; with `flatten=True`
either the bare boolean (no captures) or the tuple `(success,) + values`. -/
inductive MatchResult : Type where
  | plain (success : Bool)
  | flat (success : Bool) (values : List PyVal)
  | pair (success : Bool) (values : List PyVal)
deriving DecidableEq

/-- Python truthiness of a `match` result: a bare boolean is its own truth
value; the flattened form `(success,) + values` is a non-empty tuple, hence
truthy; the un-flattened form is a 2-tuple, hence truthy. -/
def MatchResult.toBool : MatchResult → Bool
  | .plain b => b
  | .flat _ _ => true
  | .pair _ _ => true

/-- `match(pattern, subject, flatten)` (spinoff/util/pattern_matching.py):
runs `_match(pattern, subject, True)` and packages the result:
`(success, tuple(values))` when `flatten` is false, else
`success if not values else (success,) + tuple(values)`. -/
def match' (pattern : Pattern) (subject : PyVal) (flatten : Bool) : MatchResult :=
  let (success, values) := pmatch pattern subject true
  if !flatten then .pair success values
  else if values.isEmpty then .plain success
  else .flat success values

/-- Positional matching of sub-patterns against the components the `_match`
loop actually presents them with: the i-th component of the subject when it
exists, `None` once the subject is exhausted.  (Characterizes the success of
a tuple-pattern match; see the C8 theorems.) -/
def allMatchPadded : List Pattern → List PyVal → Bool
  | [], _ => true
  | p :: ps, [] => (pmatch p (.scalar .none) true).1 && allMatchPadded ps []
  | p :: ps, x :: xs => (pmatch p x true).1 && allMatchPadded ps xs

/-! ### Remoting (spinoff/actor/remoting.py)

Addresses, paths and opaque message payloads are strings; `reactor.seconds()`
timestamps are integers (see the header).  Observable actions of the Hub (socket writes,
`Events.log(DeadLetter(...))`, endpoint registration, delivery to a local
actor, and the caught-and-logged heartbeat failure) are recorded as an
effect list. -/

abbrev Addr := String
abbrev Path := String
abbrev Msg := String
abbrev ActorId := String

/-- A remote-actor proxy: `RemoteActor(path, node, bound_to)`.  The Hub a
proxy is bound to is identified by that Hub's own node address. -/
structure RemoteActor where
  path : Path
  node : Addr
  bound_to : Addr
deriving DecidableEq

/-- The `target` member of a `Ref`: either a locally registered actor or a
`RemoteActor` proxy. -/
inductive Target : Type where
  | localActor (a : ActorId)
  | remote (r : RemoteActor)
deriving DecidableEq

/-- `Ref(target, path, node=None)` (class `Ref` is not under src/; modelled
from the spec: `Ref` is `{ target?, path, node? }`, with `Ref(None, path)`
carrying no node). -/
structure Ref where
  target : Option Target
  path : Path
  node : Option Addr
deriving DecidableEq

/-- A wire frame payload: the literal `'ping'` / `'pong'` heartbeat strings or
a pickled `(path, msg)` pair (serialization is assumed byte-accurate, so the
pair is kept structured). -/
inductive Payload : Type where
  | ping
  | pong
  | data (path : Path) (msg : Msg)
deriving DecidableEq

/-- An observable action of the Hub. -/
inductive Effect : Type where
  | sendMsg (dst : Addr) (payload : Payload)
  | addEndpoint (addr : Addr)
  | deadLetter (ref : Ref) (msg : Msg)
  | deliverLocal (actor : ActorId) (msg : Msg)
  | tickFailed
deriving DecidableEq

/-- Peer states used by the Hub (plain strings in the source). -/
inductive ConnState : Type where
  | radiosilence
  | reverse_radiosilence
  | visible
  | silentlyhoping
deriving DecidableEq

/-- `ConnectedNode(state, last_seen)`; `queue` starts as an empty deque and is
set to `None` when the Hub gives up on the peer.  A queue item is
`((path, node, msg), enqueue_time)`. -/
structure ConnectedNode where
  state : ConnState
  last_seen : Int
  queue : Option (List ((Path × Addr × Msg) × Int))
deriving DecidableEq

/-- `Hub.max_silence_between_heartbeats = 5.0` -/
def max_silence_between_heartbeats : Int := 5

/-- `Hub.time_to_keep_hope = 55.0` -/
def time_to_keep_hope : Int := 55

/-- `Hub.queue_item_lifetime = max_silence_between_heartbeats + max_silence_between_heartbeats` -/
def queue_item_lifetime : Int := max_silence_between_heartbeats + max_silence_between_heartbeats

/-- The Hub's mutable state: its own node address, the path → actor registry
and the per-address peer table (a Python dict, modelled as an ordered
association list). -/
structure Hub where
  node : Addr
  registry : List (Path × ActorId)
  connections : List (Addr × ConnectedNode)
deriving DecidableEq

/-- Dict update `d[k] = v`: replaces the binding in place or appends. -/
def updateAssoc {β : Type} : List (String × β) → String → β → List (String × β)
  | [], a, c => [(a, c)]
  | (a', c') :: rest, a, c =>
    if a' = a then (a, c) :: rest else (a', c') :: updateAssoc rest a c

/-- `Hub.emit_deadletter((path, node, msg))` =
`Events.log(DeadLetter(Ref(None, path, node), msg))`. -/
def Hub.emit_deadletter : Path × Addr × Msg → Effect
  | (path, node, msg) => .deadLetter ⟨none, path, some node⟩ msg

/-- `Hub._connect(addr, conn)`: registers an outgoing endpoint for `addr` and
immediately sends one heartbeat — `PING` if the fresh connection is in
`radiosilence`, else `PONG` (via `heartbeat_one`). -/
def Hub.connectPeer (addr : Addr) (conn : ConnectedNode) : List Effect :=
  [.addEndpoint addr,
   .sendMsg addr (if conn.state = .radiosilence then .ping else .pong)]

/-- `Hub.send_message(path, node, msg)`: looks up (or creates, in state
`radiosilence` with `last_seen = now - max_silence_between_heartbeats`) the
peer connection; then, if the peer is `visible`, transmits the encoded
`(path, msg)` immediately; otherwise appends `((path, node, msg), now)` to the
queue, or emits a dead letter when the queue has been abandoned (`None`). -/
def Hub.send_message (hub : Hub) (now : Int) (path : Path) (node : Addr) (msg : Msg) :
    Hub × List Effect :=
  let addr := node
  let (conn, connections, preEffects) :=
    match hub.connections.lookup addr with
    | some c => (c, hub.connections, ([] : List Effect))
    | none =>
      let c : ConnectedNode :=
        { state := .radiosilence,
          last_seen := now - max_silence_between_heartbeats,
          queue := some [] }
      (c, updateAssoc hub.connections addr c, Hub.connectPeer addr c)
  if conn.state = .visible then
    ({ hub with connections := connections },
     preEffects ++ [.sendMsg addr (.data path msg)])
  else
    match conn.queue with
    | none =>
      ({ hub with connections := connections },
       preEffects ++ [Hub.emit_deadletter (path, node, msg)])
    | some q =>
      let conn' := { conn with queue := some (q ++ [((path, node, msg), now)]) }
      ({ hub with connections := updateAssoc connections addr conn' }, preEffects)

/-- `Hub.got_message(sender_addr, msg)`.  Heartbeat frames are not delivered;
a payload frame is decoded and sent to the registered actor, or dead-lettered
with `Ref(None, path)` when the path is unknown.  Then peer bookkeeping: an
unknown sender must have sent `PING` (the assertion failure is modelled as
`none`; note the delivery above has already happened by then) and gets a fresh
`reverse_radiosilence` connection; a known sender's `last_seen` is refreshed
and its state becomes `reverse_radiosilence` on `PING`, else `visible`; on a
transition into `visible` the pending queue (when not `None`) is flushed in
order to the sender's address. -/
def Hub.got_message (hub : Hub) (now : Int) (sender_addr : Addr) (m : Payload) :
    Option (Hub × List Effect) :=
  let deliverEffects : List Effect :=
    match m with
    | .ping => []
    | .pong => []
    | .data path msg =>
      match hub.registry.lookup path with
      | some a => [.deliverLocal a msg]
      | none => [.deadLetter ⟨none, path, none⟩ msg]
  match hub.connections.lookup sender_addr with
  | none =>
    if m = .ping then
      let conn : ConnectedNode :=
        { state := .reverse_radiosilence, last_seen := now, queue := some [] }
      some ({ hub with connections := updateAssoc hub.connections sender_addr conn },
            deliverEffects ++ Hub.connectPeer sender_addr conn)
    else
      none
  | some conn =>
    let prevstate := conn.state
    let newstate := if m = .ping then ConnState.reverse_radiosilence else .visible
    let (queue', flushEffects) :=
      if prevstate ≠ .visible ∧ newstate = .visible then
        match conn.queue with
        | some q =>
          (some ([] : List ((Path × Addr × Msg) × Int)),
           q.map fun it => Effect.sendMsg sender_addr (.data it.1.1 it.1.2.2))
        | none => (none, ([] : List Effect))
      else
        (conn.queue, ([] : List Effect))
    let conn' : ConnectedNode := { state := newstate, last_seen := now, queue := queue' }
    some ({ hub with connections := updateAssoc hub.connections sender_addr conn' },
          deliverEffects ++ flushEffects)

/-- One peer's share of `Hub.send_heartbeat`.  The returned flag records
whether the body raised: in the `consider_lost_from` branch the source
iterates `conn.queue`, which raises `TypeError` when the queue has already
been abandoned (`None`) — the state assignment made just before the loop
persists, but no dead letters and no `PING` are produced. -/
def heartbeatConn (t : Int) (addr : Addr) (conn : ConnectedNode) :
    ConnectedNode × List Effect × Bool :=
  let consider_dead_from := t - max_silence_between_heartbeats
  let consider_lost_from := consider_dead_from - time_to_keep_hope
  if conn.state = .silentlyhoping then
    (conn, [.sendMsg addr .ping], false)
  else if conn.last_seen < consider_lost_from then
    match conn.queue with
    | some q =>
      ({ conn with state := .silentlyhoping, queue := none },
       (q.map fun it => Hub.emit_deadletter it.1) ++ [.sendMsg addr .ping], false)
    | none =>
      ({ conn with state := .silentlyhoping }, [], true)
  else if conn.last_seen < consider_dead_from then
    ({ conn with state := .radiosilence }, [.sendMsg addr .ping], false)
  else
    (conn, [.sendMsg addr .pong], false)

/-- The `for addr, conn in self.connections.items()` loop of
`send_heartbeat`; an exception aborts the loop, leaving the remaining
connections untouched. -/
def heartbeatLoop (t : Int) :
    List (Addr × ConnectedNode) → List (Addr × ConnectedNode) × List Effect × Bool
  | [] => ([], [], false)
  | (addr, conn) :: rest =>
    let (conn', effs, raised) := heartbeatConn t addr conn
    if raised then ((addr, conn') :: rest, effs, true)
    else
      let (rest', effs', raised') := heartbeatLoop t rest
      ((addr, conn') :: rest', effs ++ effs', raised')

/-- `Hub.send_heartbeat()`: processes every peer as in `heartbeatConn`; the
surrounding `try/except` catches any exception and logs a panic, so the tick
itself returns normally. -/
def Hub.send_heartbeat (hub : Hub) (now : Int) : Hub × List Effect :=
  let (conns, effs, raised) := heartbeatLoop now hub.connections
  ({ hub with connections := conns }, if raised then effs ++ [.tickFailed] else effs)

/-- The `while q:` loop of `Hub.clean_queue`: pops leading items whose
timestamp is strictly below `keep_until`, dead-lettering each, and stops at
the first item with `timestamp >= keep_until`. -/
def cleanQueueLoop (keep_until : Int) :
    List ((Path × Addr × Msg) × Int) → List ((Path × Addr × Msg) × Int) × List Effect
  | [] => ([], [])
  | (pm, ts) :: rest =>
    if ts ≥ keep_until then ((pm, ts) :: rest, [])
    else
      let (q', effs) := cleanQueueLoop keep_until rest
      (q', Hub.emit_deadletter pm :: effs)

/-- One peer's share of `Hub.clean_queue` with
`keep_until = now - queue_item_lifetime`; an abandoned queue (`None`) is left
alone (`while None` does not iterate). -/
def cleanConn (now : Int) (conn : ConnectedNode) : ConnectedNode × List Effect :=
  let keep_until := now - queue_item_lifetime
  match conn.queue with
  | none => (conn, [])
  | some q =>
    let (q', effs) := cleanQueueLoop keep_until q
    ({ conn with queue := some q' }, effs)

/-- The `for conn in self.connections.values()` loop of `clean_queue`. -/
def cleanLoop (now : Int) :
    List (Addr × ConnectedNode) → List (Addr × ConnectedNode) × List Effect
  | [] => ([], [])
  | (addr, conn) :: rest =>
    let (conn', effs) := cleanConn now conn
    let (rest', effs') := cleanLoop now rest
    ((addr, conn') :: rest', effs ++ effs')

/-- `Hub.clean_queue()`. -/
def Hub.clean_queue (hub : Hub) (now : Int) : Hub × List Effect :=
  let (conns, effs) := cleanLoop now hub.connections
  ({ hub with connections := conns }, effs)

/-- `Hub.make_proxy(path, node)`: `assert node`, then
`RemoteActor(path, node, bound_to=self)` whose constructor asserts
`path and node and bound_to` (`bound_to` is the Hub itself, always truthy).
Assertion failures are modelled as `none`. -/
def Hub.make_proxy (hub : Hub) (path : Path) (node : Addr) : Option RemoteActor :=
  if node = "" then none
  else if path = "" then none
  else some ⟨path, node, hub.node⟩

/-- The state dict of a `Ref` about to be filled by the pickle `BUILD`
instruction (`IncomingMessageUnpickler._load_build`: `self.stack[-1]` when
`self.stack[-2]` is a `Ref`). -/
structure BuildDict where
  path : Path
  node : Addr
  target : Option Target
deriving DecidableEq

/-- `IncomingMessageUnpickler._load_build` restricted to the `Ref` case: the
hook unconditionally overwrites `dict_['target']` with
`self.dude.make_proxy(dict_['path'], dict_['node'])` before the default
`load_build` fills the object with the dict. -/
def Hub.load_build (hub : Hub) (d : BuildDict) : Option BuildDict :=
  (hub.make_proxy d.path d.node).map fun proxy =>
    { d with target := some (.remote proxy) }

/-- Modelled from the spec (§4.5): the decode rule the specification states —
the locally-registered actor when `node` equals this Hub's own node address
and `path` is in the local registry, else a `RemoteProxy(path, node)` bound to
this Hub.  (Stated for comparison with `Hub.load_build`, which is what the
code does.) -/
def specDecodeTarget (hub : Hub) (path : Path) (node : Addr) : Target :=
  if node = hub.node then
    match hub.registry.lookup path with
    | some a => .localActor a
    | none => .remote ⟨path, node, hub.node⟩
  else
    .remote ⟨path, node, hub.node⟩

/-! ### Actor mailbox (unnamedframework/actor/actor.py)

The mailbox slice of `Actor`: the FIFO `_inbox` and the single optional
waiter `_waiting = (filter, deferred)` (the deferred itself is not observable
here, so a waiter is just its filter).  `unnamedframework.util.pattern` is not
under src/; modelled from the spec: per §4.1 its `match(pattern, msg)` returns
the pair `(success, captures)`, embedded as the matcher of
spinoff/util/pattern_matching.py without flattening. -/

/-- Modelled from the spec: `unnamedframework.util.pattern.match`, returning
`(success, captures)` as unpacked by `Actor.send` and `Actor.get`. -/
def patternMatchPair (p : Pattern) (s : PyVal) : Bool × List PyVal :=
  pmatch p s true

structure ActorMailbox where
  inbox : List PyVal
  waiting : Option (Option Pattern)
deriving DecidableEq

/-- Result of `Actor.get`: the popped head (no filter), the captures of the
first matching message, a pending deferred with a waiter installed, or a
`QueueUnderflow` error (a second waiter). -/
inductive GetResult : Type where
  | popped (m : PyVal)
  | captured (values : List PyVal)
  | waiter
  | queueUnderflow
deriving DecidableEq

/-- The `for msg in self._inbox:` scan in `Actor.get`: the captures of the
first message whose match result is truthy. -/
def findMatch (p : Pattern) : List PyVal → Option (List PyVal)
  | [] => none
  | msg :: rest =>
    let (m, values) := patternMatchPair p msg
    if m then some values else findMatch p rest

/-- `Actor.get(filter=None)`.  With a non-empty inbox and no filter, pops and
returns the head; with a filter, returns the captures of the first matching
message — the source returns `values` from inside the scan loop without
removing the message from `self._inbox`.  Otherwise a waiter is installed
(raising `QueueUnderflow` if one is already present). -/
def ActorMailbox.get (mb : ActorMailbox) (filter : Option Pattern) :
    GetResult × ActorMailbox :=
  let installWaiter : GetResult × ActorMailbox :=
    if mb.waiting.isSome then (.queueUnderflow, mb)
    else (.waiter, { mb with waiting := some filter })
  match mb.inbox, filter with
  | [], _ => installWaiter
  | m :: rest, none => (.popped m, { mb with inbox := rest })
  | _ :: _, some p =>
    match findMatch p mb.inbox with
    | some values => (.captured values, mb)
    | none => installWaiter

/-! ### Actor lifecycle and supervision (unnamedframework/actor/actor.py)

The slice needed for the exit-message protocol of a spawned child.  The child
is identified implicitly; an exit message `('exit', child, reason)` in the
parent's mailbox is represented by its reason.  The model elides the
recursive children of the child (the claim concerns a single child) and the
deferred plumbing that is not observable through exit messages: what remains
is the completion callback `finally_` installed by `start()` and the body of
`stop()`. -/

inductive ActorLifecycleState : Type where
  | NOT_STARTED
  | RUNNING
  | PAUSED
  | STOPPED
deriving DecidableEq

/-- The reason value of an `('exit', child, reason)` message: the coroutine's
result (`None` or a `returnValue`), the exception of a failed coroutine, or
the `ActorStopped` class sent at the end of `stop()`. -/
inductive ExitReason : Type where
  | value (v : Option Msg)
  | failure (e : String)
  | actorStopped
deriving DecidableEq

/-- The lifecycle state of a spawned child visible to the exit protocol:
`_state`, whether a parent link exists, and whether `self.d` (the deferred
returned by `start()`) has fired. -/
structure ChildActor where
  state : ActorLifecycleState
  has_parent : Bool
  d_fired : Bool
deriving DecidableEq

/-- How the child's `run` generator reacts to the `ActorStopped` exception
thrown into it by `stop()` (`self._gen.throw(ActorStopped())`). -/
inductive StopReaction : Type where
  | propagates
  | exits
  | returnsValue (v : Msg)
  | keepsYielding
deriving DecidableEq

/-- Errors raised by `stop()` itself. -/
inductive StopError : Type where
  | notStarted
  | alreadyStopped
  | refusedToStop
deriving DecidableEq

/-- The `finally_` callback added to `self.d` in `Actor.start()`: when the
deferred fires with `result`, the parent (if any) is sent
`('exit', self, result)`. -/
def finallyCallback (c : ChildActor) (result : ExitReason) :
    ChildActor × List ExitReason :=
  ({ c with d_fired := true }, if c.has_parent then [result] else [])

/-- `Actor.stop()` for a childless actor, parametrised by the coroutine's
reaction to the stop signal:

  * not-started / already-stopped actors raise;
  * a running actor is paused first;
  * the outstanding awaitable is cancelled (not observable here);
  * `self._gen.throw(ActorStopped())`: if the generator lets the exception
    propagate or exits, the `StopIteration` is swallowed; if it calls
    `returnValue(v)`, the `_DefGen_Return` handler runs
    `self.d.callback(ret.value)`, which fires `finally_` and thus sends
    `('exit', self, v)` to the parent; if it yields again,
    `ActorRefusedToStop` is raised and the rest of `stop` never runs;
  * finally `_state = STOPPED` and the parent is sent
    `('exit', self, ActorStopped)`. -/
def ChildActor.stop (c : ChildActor) (reaction : StopReaction) :
    Except StopError (ChildActor × List ExitReason) :=
  if c.state = .NOT_STARTED then .error .notStarted
  else if c.state = .STOPPED then .error .alreadyStopped
  else
    let c := if c.state = .RUNNING then { c with state := .PAUSED } else c
    match reaction with
    | .keepsYielding => .error .refusedToStop
    | .returnsValue v =>
      let (c, msgs1) := finallyCallback c (.value (some v))
      let c := { c with state := .STOPPED }
      .ok (c, msgs1 ++ (if c.has_parent then [.actorStopped] else []))
    | .propagates =>
      let c := { c with state := .STOPPED }
      .ok (c, if c.has_parent then [.actorStopped] else [])
    | .exits =>
      let c := { c with state := .STOPPED }
      .ok (c, if c.has_parent then [.actorStopped] else [])

/-- How a spawned child's lifetime ends: its `run` coroutine returns a value,
raises, or waits until the child is stopped (with the given reaction to the
stop signal). -/
inductive ChildBehavior : Type where
  | returns (v : Option Msg)
  | raises (e : String)
  | waitsThenStopped (r : StopReaction)
deriving DecidableEq

/-- A freshly spawned child (`_spawn_child` sets the parent link and calls
`start()`, which puts it in `RUNNING`). -/
def spawnedChild : ChildActor :=
  { state := .RUNNING, has_parent := true, d_fired := false }

/-- All `('exit', child, _)` messages the parent receives over the child's
whole lifetime, by behavior: a returning or raising coroutine fires `self.d`,
whose `finally_` callback sends one exit message; a stopped child sends the
messages produced by `stop()` (and its `self.d` never fires otherwise, since
the cancelled awaitable's result is stashed while paused and discarded). -/
def childExitMessages (b : ChildBehavior) : List ExitReason :=
  match b with
  | .returns v => (finallyCallback spawnedChild (.value v)).2
  | .raises e => (finallyCallback spawnedChild (.failure e)).2
  | .waitsThenStopped r =>
    match spawnedChild.stop r with
    | .ok (_, msgs) => msgs
    | .error _ => []

/-! ### Helper lemmas -/

mutual

/-- The `success` argument threads monotonically through `_match`: the result
for an arbitrary initial flag is the conjunction of the flag with the result
for `True`, and captures do not depend on the flag. -/
theorem pmatch_thread : (p : Pattern) → (s : PyVal) → (b : Bool) →
    pmatch p s b = (b && (pmatch p s true).1, (pmatch p s true).2)
  | .lit v, s, b => by simp [pmatch, Bool.and_assoc]
  | .any ig, s, b => by simp [pmatch, Bool.and_assoc]
  | .nt m ig, s, b => by simp [pmatch, Bool.and_assoc]
  | .tup ps, s, b => by
    rcases hX : pmatchLoop ps s s.isTuple true with ⟨s1, vals, rest⟩
    have hl := pmatchLoop_thread ps s s.isTuple b
    rw [hX] at hl
    simp only [pmatch, hl, hX]
    cases rest.toBool <;> simp

theorem pmatchLoop_thread : (ps : List Pattern) → (s : PyVal) → (istup b : Bool) →
    pmatchLoop ps s istup b =
      (b && (pmatchLoop ps s istup true).1, (pmatchLoop ps s istup true).2)
  | [], s, istup, b => by simp [pmatchLoop]
  | sp :: sps, s, istup, b => by
    rcases hm : pmatch sp (if istup && s.toBool then s.tupleHead else .scalar .none) true
      with ⟨t1, v1⟩
    rcases hL : pmatchLoop sps (if istup && s.toBool then s.tupleTail else .scalar .none)
      istup true with ⟨S, V, R⟩
    have h1 := pmatch_thread sp (if istup && s.toBool then s.tupleHead else .scalar .none) b
    rw [hm] at h1
    have h2b := pmatchLoop_thread sps
      (if istup && s.toBool then s.tupleTail else .scalar .none) istup (b && t1)
    have h2t := pmatchLoop_thread sps
      (if istup && s.toBool then s.tupleTail else .scalar .none) istup t1
    rw [hL] at h2b h2t
    simp only [pmatchLoop, h1, h2b, h2t, hm, hL]
    simp [Bool.and_assoc]

end

/-- When the loop guard `subject_is_tuple and subject` is false (a non-tuple
subject, or an exhausted one), every sub-pattern is matched against `None`
and the leftover subject is `None` as soon as one iteration ran. -/
theorem pmatchLoop_notTuple (ps : List Pattern) (s : PyVal) (istup : Bool)
    (h : (istup && s.toBool) = false) :
    (pmatchLoop ps s istup true).1 = allMatchPadded ps [] ∧
    (pmatchLoop ps s istup true).2.2 = (if ps.isEmpty then s else .scalar .none) := by
  induction ps generalizing s with
  | nil => simp [pmatchLoop, allMatchPadded]
  | cons p ps ih =>
    rcases hm : pmatch p (.scalar .none) true with ⟨t1, v1⟩
    have hrec := ih (.scalar .none) (by simp [PyVal.toBool])
    have hthread := pmatchLoop_thread ps (.scalar .none) istup t1
    simp only [pmatchLoop, h, if_false, hm, hthread]
    constructor
    · simp [hm, hthread, allMatchPadded, hrec.1]
    · rcases ps with _ | ⟨q, qs⟩
      · simp [hm, pmatchLoop]
      · simpa [hm, hthread] using hrec.2

/-- The loop on a genuine tuple subject: sub-patterns consume the components
positionally (padding with `None` past the end), and the leftover subject is
the unconsumed tail (or `None` once the tuple was exhausted mid-loop). -/
theorem pmatchLoop_tuple (ps : List Pattern) (xs : List PyVal) :
    (pmatchLoop ps (.tuple xs) true true).1 = allMatchPadded ps xs ∧
    (pmatchLoop ps (.tuple xs) true true).2.2 =
      (if ps.length ≤ xs.length then PyVal.tuple (xs.drop ps.length)
       else .scalar .none) := by
  induction ps generalizing xs with
  | nil => simp [pmatchLoop, allMatchPadded]
  | cons p ps ih =>
    rcases xs with _ | ⟨x, xs⟩
    · rcases hm : pmatch p (.scalar .none) true with ⟨t1, v1⟩
      have hrec := pmatchLoop_notTuple ps (.scalar .none) true (by simp [PyVal.toBool])
      have hthread := pmatchLoop_thread ps (.scalar .none) true t1
      simp only [pmatchLoop, PyVal.toBool, List.isEmpty_nil, Bool.not_true, Bool.and_false,
        if_false, hm, hthread]
      constructor
      · simp [hm, hthread, allMatchPadded, hrec.1]
      · rcases ps with _ | ⟨q, qs⟩
        · simp [hm, pmatchLoop]
        · simpa [hm, hthread] using hrec.2
    · rcases hm : pmatch p x true with ⟨t1, v1⟩
      have hrec := ih xs
      have hthread := pmatchLoop_thread ps (.tuple xs) true t1
      simp only [pmatchLoop, PyVal.toBool, PyVal.tupleHead, PyVal.tupleTail,
        List.isEmpty_cons, Bool.not_false, Bool.and_true, if_true, hm, hthread]
      constructor
      · simp [allMatchPadded, hm, hrec.1]
      · simpa [Nat.succ_le_succ_iff] using hrec.2

/-- Looking up the key just stored by `updateAssoc` yields the stored value. -/
theorem lookup_updateAssoc_self {β : Type} (l : List (String × β)) (a : String) (c : β) :
    (updateAssoc l a c).lookup a = some c := by
  induction l with
  | nil => simp [updateAssoc, List.lookup]
  | cons hd tl ih =>
    rcases hd with ⟨a', c'⟩
    by_cases h : a' = a
    · simp [updateAssoc, h, List.lookup]
    · simp only [updateAssoc, h, if_false]
      have : (a == a') = false := by
        simp [beq_eq_false_iff_ne]
        exact fun hh => h hh.symm
      simp [List.lookup, this, ih]

/-- `updateAssoc` leaves other keys alone. -/
theorem lookup_updateAssoc_ne {β : Type} (l : List (String × β)) (a b : String) (c : β)
    (hab : b ≠ a) : (updateAssoc l a c).lookup b = l.lookup b := by
  induction l with
  | nil => simp [updateAssoc, List.lookup, beq_eq_false_iff_ne.mpr hab]
  | cons hd tl ih =>
    rcases hd with ⟨a', c'⟩
    by_cases h : a' = a
    · subst h
      simp [updateAssoc, List.lookup, beq_eq_false_iff_ne.mpr hab]
    · simp [updateAssoc, h, List.lookup, ih]

/-- With non-decreasing timestamps, the leading-stale-items loop of
`clean_queue` removes exactly the items strictly older than `keep_until`,
dead-letters each of them in order, and keeps the rest unchanged. -/
theorem cleanQueueLoop_pairwise (keep : Int) :
    ∀ q : List ((Path × Addr × Msg) × Int),
    List.Pairwise (fun a b => a.2 ≤ b.2) q →
    cleanQueueLoop keep q =
      (q.filter (fun it => keep ≤ it.2),
       (q.filter (fun it => it.2 < keep)).map (fun it => Hub.emit_deadletter it.1))
  | [], _ => by simp [cleanQueueLoop]
  | (pm, ts) :: rest, h => by
    rcases List.pairwise_cons.mp h with ⟨hhead, htail⟩
    by_cases hts : ts ≥ keep
    · have hall : ∀ it ∈ rest, (decide (keep ≤ it.2)) = true := by
        intro it hit
        simpa using le_trans hts (hhead it hit)
      have hnone : ∀ it ∈ rest, ¬(decide (it.2 < keep)) = true := by
        intro it hit
        simpa using not_lt.mpr (le_trans hts (hhead it hit))
      simp [cleanQueueLoop, hts, not_lt.mpr hts, List.filter_cons,
        List.filter_eq_self.mpr hall, List.filter_eq_nil_iff.mpr hnone]
    · push_neg at hts
      have IH := cleanQueueLoop_pairwise keep rest htail
      simp [cleanQueueLoop, not_le.mpr hts, hts, IH, List.filter_cons, not_le_of_lt hts]

/-- The `clean_queue` loop applies `cleanConn` to every peer in order and
concatenates the emitted dead letters. -/
theorem cleanLoop_spec (now : Int) :
    ∀ l : List (Addr × ConnectedNode),
    cleanLoop now l =
      (l.map (fun p => (p.1, (cleanConn now p.2).1)),
       (l.map (fun p => (cleanConn now p.2).2)).flatten)
  | [] => by simp [cleanLoop]
  | (a, c) :: rest => by
    have IH := cleanLoop_spec now rest
    simp [cleanLoop, IH]

/-! ### Claim theorems: pattern matcher -/

/-- C8, counterexample: the claim says a tuple pattern fails on a subject
tuple of different length and on any non-tuple subject; but `(ANY, ANY)`
matches the 1-tuple `(5,)` (the second `ANY` is matched against the `None`
padding) and `(ANY,)` matches the non-tuple subject `7`. -/
theorem C8_counterexample :
    (pmatch (.tup [.any false, .any false]) (.tuple [.scalar (.int 5)]) true).1 = true ∧
    (pmatch (.tup [.any false]) (.scalar (.int 7)) true).1 = true := by
  decide

/-- C8 (amended): a tuple pattern `(p₁, …, pₙ)` succeeds on a tuple subject
iff the subject has at most `n` components and each `pᵢ` matches its
positional component, components past the subject's length being `None`; on a
non-tuple subject (with `n ≥ 1`) it succeeds iff every `pᵢ` matches `None` —
the subject itself is never compared. -/
theorem C8_tuple_pattern_match (ps : List Pattern) (s : PyVal) :
    (∀ xs, s = .tuple xs →
       (pmatch (.tup ps) s true).1 =
         (decide (xs.length ≤ ps.length) && allMatchPadded ps xs)) ∧
    (s.isTuple = false → ps ≠ [] →
       (pmatch (.tup ps) s true).1 = allMatchPadded ps []) := by
  constructor
  · rintro xs rfl
    have h := pmatchLoop_tuple ps xs
    rcases hX : pmatchLoop ps (.tuple xs) true true with ⟨s1, vals, rest⟩
    rw [hX] at h
    simp only at h
    rcases h with ⟨h1, h2⟩
    subst h1
    simp only [pmatch, PyVal.isTuple, hX, h2]
    by_cases hlen : ps.length ≤ xs.length
    · rw [if_pos hlen]
      by_cases hlen2 : xs.length ≤ ps.length
      · have hdrop : xs.drop ps.length = [] := List.drop_eq_nil_of_le hlen2
        simp [PyVal.toBool, hdrop, hlen2]
      · have hpos : (xs.drop ps.length).length ≠ 0 := by
          rw [List.length_drop]
          omega
        have hdrop : ¬(xs.drop ps.length).isEmpty = true := by
          rw [List.isEmpty_iff]
          intro hh
          exact hpos (by rw [hh]; rfl)
        simp [PyVal.toBool, hdrop, hlen2]
    · rw [if_neg hlen]
      have hlen2 : xs.length ≤ ps.length := Nat.le_of_not_le hlen
      simp [PyVal.toBool, hlen2]
  · intro htup hps
    rcases s with sc | xs
    · have h := pmatchLoop_notTuple ps (.scalar sc) false (by simp)
      rcases hX : pmatchLoop ps (.scalar sc) false true with ⟨s1, vals, rest⟩
      rw [hX] at h
      simp only at h
      rcases h with ⟨h1, h2⟩
      subst h1
      have hrest : rest = .scalar .none := by
        rw [h2]
        rcases ps with _ | ⟨q, qs⟩
        · exact absurd rfl hps
        · simp
      simp [pmatch, PyVal.isTuple, hX, hrest, PyVal.toBool]
    · simp [PyVal.isTuple] at htup

/-- C8, witness: instantiates the amended tuple-subject characterization at
pattern `(ANY, ANY)` and subject `(5,)`. -/
theorem C8_witness :
    (pmatch (.tup [.any false, .any false]) (.tuple [.scalar (.int 5)]) true).1 =
      (decide (([PyVal.scalar (.int 5)].length) ≤ ([Pattern.any false, .any false].length)) &&
       allMatchPadded [.any false, .any false] [.scalar (.int 5)]) :=
  (C8_tuple_pattern_match [.any false, .any false] (.tuple [.scalar (.int 5)])).1
    [.scalar (.int 5)] rfl

/-- C9, counterexample: the claim says `NOT(p)` matches exactly when `p` does
not match and captures nothing; but `ANY` matches `5` and `NOT(ANY)` *also*
matches `5` (Python 2's `!=` on a `Matcher` is not the negation of `==`), and
the successful `NOT(ANY)` match captures the subject `5`. -/
theorem C9_counterexample :
    pmatch (.any false) (.scalar (.int 5)) true = (true, [.scalar (.int 5)]) ∧
    pmatch (.nt (.any false) false) (.scalar (.int 5)) true = (true, [.scalar (.int 5)]) := by
  decide

/-- C9 (amended): `NOT(p)` matches a subject exactly when Python's `p != s`
holds — the negation of `p == s` when `p` is a plain value or a tuple, but
always true when `p` is itself a `Matcher` (which has `__eq__` and no
`__ne__`) — and a successful `NOT(p)` match captures the subject (unless
wrapped in `IGNORE`), since `NOT` is a collecting `Matcher`. -/
theorem C9_NOT_semantics (p : Pattern) (s : PyVal) (ig : Bool) :
    pmatch (.nt p ig) s true = (pyNe p s, if ig then [] else [s]) ∧
    pyNe p s = (if p.isMatcher then true else !(patternEq p s)) := by
  constructor
  · cases ig <;> simp [pmatch, patternEq, is_collect]
  · cases p <;> cases s <;> simp [pyNe, patternEq, Pattern.isMatcher]

/-- C10: with `flatten=True`, `match` returns the bare success boolean when
no value was captured, and the tuple `(success,) + captures` when at least
one value was captured — a truthy value even when `success` is `False`. -/
theorem C10_flatten_shape (p : Pattern) (s : PyVal) :
    ((pmatch p s true).2 = [] → match' p s true = .plain (pmatch p s true).1) ∧
    ((pmatch p s true).2 ≠ [] →
       match' p s true = .flat (pmatch p s true).1 (pmatch p s true).2 ∧
       (match' p s true).toBool = true) := by
  rcases hX : pmatch p s true with ⟨b, vals⟩
  constructor
  · intro h
    simp only at h
    simp [match', hX, h]
  · intro h
    simp only at h
    have hne : ¬vals.isEmpty = true := by
      rw [List.isEmpty_iff]
      exact h
    constructor
    · simp [match', hX, hne]
    · simp [match', hX, hne, MatchResult.toBool]

/-- C10, witness: a capturing pattern (`ANY`) against subject `5`. -/
theorem C10_witness :
    match' (.any false) (.scalar (.int 5)) true = .flat true [.scalar (.int 5)] ∧
    (match' (.any false) (.scalar (.int 5)) true).toBool = true :=
  (C10_flatten_shape (.any false) (.scalar (.int 5))).2 (by decide)

/-! ### Claim theorems: remoting Hub -/

/-- C1: for a send to a peer whose connection already exists, exactly one of
three outcomes occurs — `visible` peers get the encoded `(path, msg)`
transmitted immediately; otherwise the entry `((path, node, msg), now)` is
appended to the queue when it is not `None`; otherwise one
`DeadLetter(Ref(None, path, node), msg)` is emitted.  The three cases are
mutually exclusive and exhaustive. -/
theorem C1_send_message_outcomes (hub : Hub) (now : Int) (path : Path) (node : Addr)
    (msg : Msg) (conn : ConnectedNode)
    (h : hub.connections.lookup node = some conn) :
    (conn.state = .visible →
       hub.send_message now path node msg = (hub, [.sendMsg node (.data path msg)])) ∧
    (conn.state ≠ .visible → ∀ q, conn.queue = some q →
       hub.send_message now path node msg =
         ({ hub with
              connections := updateAssoc hub.connections node
                ({ conn with queue := some (q ++ [((path, node, msg), now)]) }) }, [])) ∧
    (conn.state ≠ .visible → conn.queue = none →
       hub.send_message now path node msg = (hub, [Hub.emit_deadletter (path, node, msg)])) := by
  refine ⟨?_, ?_, ?_⟩
  · intro hv
    simp [Hub.send_message, h, hv]
  · intro hv q hq
    simp [Hub.send_message, h, hv, hq]
  · intro hv hq
    simp [Hub.send_message, h, hv, hq]

/-- C1, witness: a `radiosilence` peer with an empty queue gets the message
queued with its timestamp. -/
theorem C1_witness :
    ((⟨"A:1", [], [("B:2", ⟨.radiosilence, 0, some []⟩)]⟩ : Hub)).connections.lookup "B:2"
        = some ⟨.radiosilence, 0, some []⟩ ∧
    Hub.send_message ⟨"A:1", [], [("B:2", ⟨.radiosilence, 0, some []⟩)]⟩ 3 "p" "B:2" "m"
      = (⟨"A:1", [],
           updateAssoc [("B:2", ⟨.radiosilence, 0, some []⟩)] "B:2"
             ⟨.radiosilence, 0, some [(("p", "B:2", "m"), 3)]⟩⟩, []) := by
  refine ⟨by decide, ?_⟩
  exact (C1_send_message_outcomes ⟨"A:1", [], [("B:2", ⟨.radiosilence, 0, some []⟩)]⟩
    3 "p" "B:2" "m" ⟨.radiosilence, 0, some []⟩ (by decide)).2.1 (by decide) [] rfl

/-- C2, counterexample: decoding a `Ref` whose `node` is this Hub's own node
and whose `path` is locally registered still installs a `RemoteActor` proxy —
the hook never consults the registry — where the claim (and spec §4.5)
requires the locally-registered actor. -/
theorem C2_counterexample :
    Hub.load_build ⟨"A:1", [("p", "actorP")], []⟩ ⟨"p", "A:1", none⟩
      = some ⟨"p", "A:1", some (.remote ⟨"p", "A:1", "A:1"⟩)⟩ ∧
    specDecodeTarget ⟨"A:1", [("p", "actorP")], []⟩ "p" "A:1" = .localActor "actorP" ∧
    Target.remote ⟨"p", "A:1", "A:1"⟩ ≠ .localActor "actorP" := by
  decide

/-- C2 (amended): for every decoded `Ref` (with non-empty `path` and `node`,
otherwise the hook's assertions fire) the `target` field is replaced by a
`RemoteProxy(path, node)` bound to this Hub in every case — even when `node`
is this Hub's own address and `path` is locally registered. -/
theorem C2_decode_always_proxy (hub : Hub) (d : BuildDict)
    (hpath : d.path ≠ "") (hnode : d.node ≠ "") :
    hub.load_build d = some { d with target := some (.remote ⟨d.path, d.node, hub.node⟩) } := by
  simp [Hub.load_build, Hub.make_proxy, hpath, hnode]

/-- C2, witness: the registered-path decode from the counterexample, through
the amended rule. -/
theorem C2_witness :
    Hub.load_build ⟨"A:1", [("p", "actorP")], []⟩ ⟨"p", "A:1", some (.localActor "old")⟩
      = some ⟨"p", "A:1", some (.remote ⟨"p", "A:1", "A:1"⟩)⟩ :=
  C2_decode_always_proxy ⟨"A:1", [("p", "actorP")], []⟩ ⟨"p", "A:1", some (.localActor "old")⟩
    (by decide) (by decide)

/-- C3, counterexample: a reachable peer can be `visible` with an abandoned
(`None`) queue — send to an unknown peer, let the heartbeat declare it lost,
then receive a `PONG` from it.  On the next tick with
`last_seen < now − max_silence_between_heartbeats − time_to_keep_hope` the
claim requires a state change to `silentlyhoping` *and a PING*; the code sets
the state but then raises iterating the `None` queue, so no `PING` (and no
frame at all) is sent — only the caught failure is logged. -/
theorem C3_counterexample :
    ((Hub.send_message ⟨"A:1", [], []⟩ 0 "p" "B:2" "m1").1.send_heartbeat 61).1.got_message
        62 "B:2" .pong
      = some (⟨"A:1", [], [("B:2", ⟨.visible, 62, none⟩)]⟩, []) ∧
    ((62 : Int) < 130 - max_silence_between_heartbeats - time_to_keep_hope) ∧
    (ConnState.visible ≠ ConnState.silentlyhoping) ∧
    Hub.send_heartbeat ⟨"A:1", [], [("B:2", ⟨.visible, 62, none⟩)]⟩ 130
      = (⟨"A:1", [], [("B:2", ⟨.silentlyhoping, 62, none⟩)]⟩, [.tickFailed]) := by
  decide

/-- C3 (amended): on a heartbeat tick each peer is handled as the claim says
— `silentlyhoping` peers get a `PING`; peers silent past
`now − max_silence_between_heartbeats − time_to_keep_hope` move to
`silentlyhoping` with every queued item dead-lettered, the queue set to
`None` and a `PING` sent, *provided the queue is not already `None`* (if it
is, the state still changes but the tick raises: no `PING` is sent and the
remaining peers are skipped); peers silent past
`now − max_silence_between_heartbeats` move to `radiosilence` and get a
`PING`; fresh peers get a `PONG`. -/
theorem C3_heartbeat_cases (t : Int) (addr : Addr) (conn : ConnectedNode) :
    (conn.state = .silentlyhoping →
       heartbeatConn t addr conn = (conn, [.sendMsg addr .ping], false)) ∧
    (conn.state ≠ .silentlyhoping →
     conn.last_seen < t - max_silence_between_heartbeats - time_to_keep_hope →
       (∀ q, conn.queue = some q →
          heartbeatConn t addr conn =
            ({ conn with state := .silentlyhoping, queue := none },
             (q.map fun it => Hub.emit_deadletter it.1) ++ [.sendMsg addr .ping], false)) ∧
       (conn.queue = none →
          heartbeatConn t addr conn = ({ conn with state := .silentlyhoping }, [], true))) ∧
    (conn.state ≠ .silentlyhoping →
     ¬ conn.last_seen < t - max_silence_between_heartbeats - time_to_keep_hope →
     conn.last_seen < t - max_silence_between_heartbeats →
       heartbeatConn t addr conn = ({ conn with state := .radiosilence },
         [.sendMsg addr .ping], false)) ∧
    (conn.state ≠ .silentlyhoping →
     ¬ conn.last_seen < t - max_silence_between_heartbeats →
       heartbeatConn t addr conn = (conn, [.sendMsg addr .pong], false)) := by
  refine ⟨?_, ?_, ?_, ?_⟩
  · intro hs
    simp [heartbeatConn, hs]
  · intro hs hl
    constructor
    · intro q hq
      simp [heartbeatConn, hs, hl, hq]
    · intro hq
      simp [heartbeatConn, hs, hl, hq]
  · intro hs hnl hd
    simp [heartbeatConn, hs, hnl, hd]
  · intro hs hnd
    have hhope : (0 : Int) ≤ time_to_keep_hope := by norm_num [time_to_keep_hope]
    have hnl : ¬ conn.last_seen < t - max_silence_between_heartbeats - time_to_keep_hope := by
      intro hh
      exact hnd (lt_of_lt_of_le hh (by linarith))
    simp [heartbeatConn, hs, hnl, hnd]

/-- C3, witness: a peer last seen at `0`, examined at `100`, with one queued
item: it is declared lost, the item dead-lettered, the queue abandoned and a
`PING` sent. -/
theorem C3_witness :
    heartbeatConn 100 "B:2" ⟨.visible, 0, some [(("p", "B:2", "m"), 0)]⟩
      = (⟨.silentlyhoping, 0, none⟩,
         [Hub.emit_deadletter ("p", "B:2", "m"), .sendMsg "B:2" .ping], false) := by
  exact ((C3_heartbeat_cases 100 "B:2" ⟨.visible, 0, some [(("p", "B:2", "m"), 0)]⟩).2.1
    (by decide) (by norm_num [max_silence_between_heartbeats, time_to_keep_hope])).1
    [(("p", "B:2", "m"), 0)] rfl

/-- C4, counterexample: the claim says a peer with an abandoned queue
dead-letters *every* subsequent send, in every reachable state, "including
after further inbound frames arrive from that peer" — but an inbound `PONG`
from such a peer makes it `visible` (the queue stays `None`), after which
`send_message` transmits immediately instead of dead-lettering.  The state is
reached here by a send, a heartbeat tick past `time_to_keep_hope`, and the
peer's `PONG`. -/
theorem C4_counterexample :
    ((Hub.send_message ⟨"A:1", [], []⟩ 0 "p" "B:2" "m1").1.send_heartbeat 61).1.got_message
        62 "B:2" .pong
      = some (⟨"A:1", [], [("B:2", ⟨.visible, 62, none⟩)]⟩, []) ∧
    Hub.send_message ⟨"A:1", [], [("B:2", ⟨.visible, 62, none⟩)]⟩ 62 "q" "B:2" "m2"
      = (⟨"A:1", [], [("B:2", ⟨.visible, 62, none⟩)]⟩,
         [.sendMsg "B:2" (.data "q" "m2")]) := by
  decide

/-- C4 (amended): while a peer's queue is `None`, a send is dead-lettered
exactly when the state is not `visible`; when inbound frames have made the
peer `visible` the send is transmitted immediately.  Inbound frames never
re-enable the queue: after any `got_message` from that peer it is still
`None`. -/
theorem C4_queue_none_behaviour (hub : Hub) (now : Int) (path : Path) (node : Addr)
    (msg : Msg) (conn : ConnectedNode)
    (h : hub.connections.lookup node = some conn)
    (hq : conn.queue = none) :
    (conn.state ≠ .visible →
       hub.send_message now path node msg = (hub, [Hub.emit_deadletter (path, node, msg)])) ∧
    (conn.state = .visible →
       hub.send_message now path node msg = (hub, [.sendMsg node (.data path msg)])) ∧
    (∀ (t : Int) (m : Payload) (hub' : Hub) (effs : List Effect),
       hub.got_message t node m = some (hub', effs) →
       ∀ c', hub'.connections.lookup node = some c' → c'.queue = none) := by
  refine ⟨?_, ?_, ?_⟩
  · intro hv
    simp [Hub.send_message, h, hv, hq]
  · intro hv
    simp [Hub.send_message, h, hv]
  · intro t m hub' effs hgm c' hc'
    simp only [Hub.got_message, h, hq, ite_self, Option.some.injEq, Prod.mk.injEq] at hgm
    obtain ⟨hhub, -⟩ := hgm
    subst hhub
    rw [lookup_updateAssoc_self] at hc'
    simp only [Option.some.injEq] at hc'
    subst hc'
    rfl

/-- C4, witness: a `radiosilence` peer with `queue = None`: the send is
dead-lettered; and after a `PONG` from it the queue is still `None`. -/
theorem C4_witness :
    Hub.send_message ⟨"A:1", [], [("B:2", ⟨.radiosilence, 0, none⟩)]⟩ 7 "p" "B:2" "m"
      = (⟨"A:1", [], [("B:2", ⟨.radiosilence, 0, none⟩)]⟩,
         [Hub.emit_deadletter ("p", "B:2", "m")]) := by
  exact (C4_queue_none_behaviour ⟨"A:1", [], [("B:2", ⟨.radiosilence, 0, none⟩)]⟩
    7 "p" "B:2" "m" ⟨.radiosilence, 0, none⟩ (by decide) rfl).1 (by decide)

/-- C5: on a queue-cleanup tick, for a peer with a non-`None` queue whose
timestamps are non-decreasing, exactly the items strictly older than
`now − queue_item_lifetime` (a 10-second lifetime, twice
`max_silence_between_heartbeats`) — all of them leading — are removed and
dead-lettered in order; the remaining items are kept unchanged and in order;
and the tick processes every peer this way. -/
theorem C5_clean_queue_spec (hub : Hub) (now : Int) (addr : Addr) (conn : ConnectedNode)
    (q : List ((Path × Addr × Msg) × Int))
    (_hmem : (addr, conn) ∈ hub.connections)
    (hq : conn.queue = some q)
    (hmono : List.Pairwise (fun a b => a.2 ≤ b.2) q) :
    cleanConn now conn =
      ({ conn with queue := some (q.filter (fun it => now - queue_item_lifetime ≤ it.2)) },
       (q.filter (fun it => it.2 < now - queue_item_lifetime)).map
         (fun it => Hub.emit_deadletter it.1)) ∧
    queue_item_lifetime = 2 * max_silence_between_heartbeats ∧
    (hub.clean_queue now).1.connections =
      hub.connections.map (fun p => (p.1, (cleanConn now p.2).1)) ∧
    (hub.clean_queue now).2 =
      (hub.connections.map (fun p => (cleanConn now p.2).2)).flatten := by
  refine ⟨?_, by norm_num [queue_item_lifetime, max_silence_between_heartbeats], ?_, ?_⟩
  · have hloop := cleanQueueLoop_pairwise (now - queue_item_lifetime) q hmono
    simp [cleanConn, hq, hloop]
  · simp [Hub.clean_queue, cleanLoop_spec]
  · simp [Hub.clean_queue, cleanLoop_spec]

/-- C5, witness: at `now = 12` (so `keep_until = 2`), of the two queued items
stamped `0` and `15`, exactly the first is dead-lettered and the second kept. -/
theorem C5_witness :
    cleanConn 12 ⟨.radiosilence, 0, some [(("p", "B:2", "m1"), 0), (("p", "B:2", "m2"), 15)]⟩
      = (⟨.radiosilence, 0,
          some ([(("p", "B:2", "m1"), 0), (("p", "B:2", "m2"), 15)].filter
            (fun it => (12 : Int) - queue_item_lifetime ≤ it.2))⟩,
         ([(("p", "B:2", "m1"), 0), (("p", "B:2", "m2"), 15)].filter
            (fun it => it.2 < (12 : Int) - queue_item_lifetime)).map
           (fun it => Hub.emit_deadletter it.1)) := by
  exact (C5_clean_queue_spec
    ⟨"A:1", [], [("B:2", ⟨.radiosilence, 0,
       some [(("p", "B:2", "m1"), 0), (("p", "B:2", "m2"), 15)]⟩)]⟩
    12 "B:2" ⟨.radiosilence, 0, some [(("p", "B:2", "m1"), 0), (("p", "B:2", "m2"), 15)]⟩
    [(("p", "B:2", "m1"), 0), (("p", "B:2", "m2"), 15)]
    (by decide) rfl (by decide)).1

/-! ### Claim theorems: actor mailbox and supervision -/

/-- C6: evaluation of `Actor.get` at the failing input.  With inbox `["a"]`
and a matching filter, the captures are returned but the mailbox is returned
*unchanged* — the matched message `"a"` is still in the inbox, so the next
`get` sees it again; the claim (and spec §4.2) says the matched message is
removed.  The `filter is None` branch does remove (`pop(0)`); the scan branch
lacks the removal. -/
theorem C6_get_does_not_remove :
    ActorMailbox.get ⟨[.scalar (.str "a")], none⟩ (some (.any false))
      = (.captured [.scalar (.str "a")], ⟨[.scalar (.str "a")], none⟩) ∧
    ActorMailbox.get ⟨[.scalar (.str "a")], none⟩ none
      = (.popped (.scalar (.str "a")), ⟨[], none⟩) := by
  decide

/-- C7, counterexample: a child whose coroutine answers the stop signal with
`returnValue(v)` makes `stop()` fire `self.d.callback(v)` — running the
`finally_` callback, which sends `('exit', child, v)` — and then `stop()`
itself sends `('exit', child, ActorStopped)`: the parent receives **two**
exit messages for one child, where the claim allows exactly one. -/
theorem C7_counterexample :
    childExitMessages (.waitsThenStopped (.returnsValue "x"))
      = [.value (some "x"), .actorStopped] ∧
    (childExitMessages (.waitsThenStopped (.returnsValue "x"))).length ≠ 1 := by
  decide

/-- C7 (amended): the parent receives exactly one `('exit', child, _)`
message when the child's `run` returns, raises, or the child is stopped and
its coroutine exits plainly on the `ActorStopped` signal; but when the
coroutine responds to `stop()` with `returnValue` the parent receives two
exit messages (the value, then `ActorStopped`), and when the coroutine
refuses to stop, `stop()` raises `ActorRefusedToStop` and sends none. -/
theorem C7_exit_message_protocol (v : Option Msg) (e : String) (w : Msg) :
    childExitMessages (.returns v) = [.value v] ∧
    childExitMessages (.raises e) = [.failure e] ∧
    childExitMessages (.waitsThenStopped .propagates) = [.actorStopped] ∧
    childExitMessages (.waitsThenStopped .exits) = [.actorStopped] ∧
    childExitMessages (.waitsThenStopped (.returnsValue w))
      = [.value (some w), .actorStopped] ∧
    childExitMessages (.waitsThenStopped .keepsYielding) = [] := by
  refine ⟨rfl, rfl, rfl, rfl, rfl, rfl⟩

end Spinoff
